import Mathlib

/-!
Shallow embedding of the `overlord` monitoring dashboard core
(src/lib/core.py, src/lib/app.py, src/plugins/udp.py,
src/plugins/watchdog.py) and proofs about the claims of its
specification.  Python dictionaries whose domain is never iterated are
modelled as functions into `Option`; dictionaries that the code iterates
or tests for emptiness are modelled as association lists.  Python floats
carrying timestamps and rates are modelled as rationals; exceptions are
modelled with `Except`.
-/

namespace Overlord

/-! ## Generic map and Python string helpers -/

/-- Update one key of a function-backed map (Python `d[k] = v` /
`d.pop(k)` on a dictionary that is only ever read pointwise). -/
def upd {κ α : Type} [DecidableEq κ] (m : κ → Option α) (k : κ) (v : Option α) :
    κ → Option α :=
  fun k' => if k' = k then v else m k'

/-- First value stored for a key in an association-list dictionary
(Python `d.get(k)`). -/
def alGet {κ α : Type} [DecidableEq κ] : List (κ × α) → κ → Option α
  | [], _ => none
  | kv :: rest, k => if kv.1 = k then some kv.2 else alGet rest k

/-- Replace the value stored for a key, appending the pair when the key
is absent (Python `d[k] = v` on an association-list dictionary). -/
def alSet {κ α : Type} [DecidableEq κ] : List (κ × α) → κ → α → List (κ × α)
  | [], k, v => [(k, v)]
  | kv :: rest, k, v => if kv.1 = k then (k, v) :: rest else kv :: alSet rest k v

/-- Python `d.setdefault(k, v)`: insert `v` only when the key is absent. -/
def alSetDefault {κ α : Type} [DecidableEq κ] (l : List (κ × α)) (k : κ) (v : α) :
    List (κ × α) :=
  match alGet l k with
  | some _ => l
  | none => l ++ [(k, v)]

/-- Python `d.pop(k, None)`: drop every pair stored under the key (a
dictionary holds at most one). -/
def alErase {κ α : Type} [DecidableEq κ] (l : List (κ × α)) (k : κ) : List (κ × α) :=
  l.filter (fun kv => kv.1 ≠ k)

/-- Python whitespace as recognised by `str.strip()`. -/
def pyIsSpace (c : Char) : Bool :=
  c = ' ' || c = '\t' || c = '\n' || c = '\r' || c = '\x0b' || c = '\x0c'

/-- Drop leading whitespace characters. -/
def dropLeadingSpaces : List Char → List Char
  | [] => []
  | c :: rest => if pyIsSpace c then dropLeadingSpaces rest else c :: rest

/-- Python `s.strip()`. -/
def pyStrip (s : String) : String :=
  ⟨(dropLeadingSpaces (dropLeadingSpaces s.data).reverse).reverse⟩

/-- Python `s.lower()` (ASCII case folding, which is all the code relies
on for its keys). -/
def pyLower (s : String) : String :=
  ⟨s.data.map Char.toLower⟩

/-- Python `s or d` on strings: the empty string is falsy. -/
def pyOr (s d : String) : String :=
  if s = "" then d else s

/-- Characters before the first colon. -/
def takeBeforeColon : List Char → List Char
  | [] => []
  | c :: rest => if c = ':' then [] else c :: takeBeforeColon rest

/-! ## Data model (src/lib/pluginApi.py) -/

/-- Descriptor registered for a plugin type (`PluginMeta`,
pluginApi.py).  `defaultParams` is kept as an opaque key/value list;
parameter merging is outside the claims. -/
structure PluginMeta where
  typeName : String
  defaultParams : List (String × String) := []
  exposeStatus : Bool := true
  showInTable : Bool := true
deriving DecidableEq

/-- One status row (`TableRow`, pluginApi.py). -/
structure TableRow where
  host : String
  source : String
  text : String
  severity : String := "info"
  ts : ℚ := 0
  ip : Option String := none
deriving DecidableEq

/-! ## State aggregator (src/lib/core.py) -/

/-- Mutable per-host state (`HostState`, core.py).  The command map and
live executor map are omitted: no claim concerns them, and executors are
live Python objects. -/
structure HostState where
  host : String
  ip : Option String := none
  rowsBySource : String → Option TableRow := fun _ => none

/-- The aggregator (`MonitorCore`, core.py).  `pluginRegistry` models
`PluginRegistry.pluginsByType` (pluginLoader.py): the dictionary from
normalised type name to the loaded plugin's metadata.  The log lock is a
runtime artefact with no state of its own. -/
structure MonitorCore where
  pluginRegistry : String → Option PluginMeta
  hostsByName : String → Option HostState := fun _ => none
  hostOrder : List String := []
  selectedIndex : Nat := 0
  commandLog : List String := []
  statusMsg : String := "ready"
  lastRowByHostBaseType : String × String → Option TableRow := fun _ => none

/-- Capacity of the command log (`self.maxLogLines = 512`, core.py). -/
def maxLogLines : Nat := 512

/-- `PluginRegistry.resolve` (pluginLoader.py lines 24-26): lookup by
`str(typeName or "").strip().lower()`. -/
def resolve (c : MonitorCore) (typeName : String) : Option PluginMeta :=
  c.pluginRegistry (pyLower (pyStrip typeName))

/-- `MonitorCore.pluginShowInTable` (core.py lines 98-100):
`bool(loaded and getattr(loaded.meta, "showInTable", True))`; the
attribute is always present on `PluginMeta`. -/
def pluginShowInTable (c : MonitorCore) (pluginType : String) : Bool :=
  match resolve c pluginType with
  | none => false
  | some m => m.showInTable

/-- `MonitorCore.getBaseTypeFromSource` (core.py lines 102-104):
`(str(source or "").strip().lower() or "?").split(":", 1)[0]`. -/
def getBaseTypeFromSource (source : String) : String :=
  ⟨takeBeforeColon (pyOr (pyLower (pyStrip source)) "?").data⟩

/-- `MonitorCore.ensureHost` (core.py lines 54-61). -/
def ensureHost (c : MonitorCore) (hostKey : String) : MonitorCore :=
  let key := pyOr (pyStrip hostKey) "?"
  match c.hostsByName key with
  | some _ => c
  | none =>
    { c with
      hostsByName := upd c.hostsByName key (some { host := key }),
      hostOrder := c.hostOrder ++ [key],
      selectedIndex := if c.hostOrder.length + 1 = 1 then 0 else c.selectedIndex }

/-- `MonitorCore.getLastSeverity` (core.py lines 106-115). -/
def getLastSeverity (c : MonitorCore) (hostKey sourceBaseType : String) :
    Option String :=
  let hk := pyStrip hostKey
  let bt := pyLower (pyStrip sourceBaseType)
  if hk = "" ∨ bt = "" then none
  else
    match c.lastRowByHostBaseType (hk, bt) with
    | none => none
    | some row =>
      let sev := pyLower (pyStrip row.severity)
      if sev = "" then none else some sev

/-- `MonitorCore.writeTableRow` (core.py lines 117-129).  The inline
`(str(row.source or "").strip().lower() or "?")` and its
`split(":", 1)[0]` are the same computations as
`getBaseTypeFromSource`. -/
def writeTableRow (c : MonitorCore) (row : TableRow) : MonitorCore :=
  let c1 := ensureHost c row.host
  let key := pyOr (pyStrip row.host) "?"
  let pluginTypeFull := pyOr (pyLower (pyStrip row.source)) "?"
  let baseType : String := ⟨takeBeforeColon pluginTypeFull.data⟩
  if pluginShowInTable c1 baseType then
    match c1.hostsByName key with
    | none => c1
    | some st =>
      let st1 := { st with rowsBySource := upd st.rowsBySource pluginTypeFull (some row) }
      let st2 :=
        match row.ip with
        | some ipStr => if pyStrip ipStr = "" then st1 else { st1 with ip := some (pyStrip ipStr) }
        | none => st1
      { c1 with hostsByName := upd c1.hostsByName key (some st2) }
  else c1

/-- The host-stamping step of `MonitorCore.writeTable`
(core.py lines 135-145). -/
def fixRow (hostKey : String) (row : TableRow) : TableRow :=
  if row.host ≠ "" then row
  else { row with host := pyOr (pyStrip hostKey) "?" }

/-- `MonitorCore.writeTable` (core.py lines 131-154).  The
`isinstance(row, TableRow)` guard is enforced by the type. -/
def writeTable (c : MonitorCore) (hostKey : String) (row : TableRow) : MonitorCore :=
  let fixedRow := fixRow hostKey row
  let hostKeyFixed := pyStrip fixedRow.host
  let baseType := getBaseTypeFromSource fixedRow.source
  let c1 :=
    if hostKeyFixed ≠ "" ∧ baseType ≠ "" then
      { c with
        lastRowByHostBaseType :=
          upd c.lastRowByHostBaseType (hostKeyFixed, baseType) (some fixedRow) }
    else c
  writeTableRow c1 fixedRow

/-- The full-source-key entry of a host's visible row map, as the UI
reads it (`HostState.rowsBySource`). -/
def visibleRow (c : MonitorCore) (hostKey sourceKey : String) : Option TableRow :=
  match c.hostsByName hostKey with
  | none => none
  | some st => st.rowsBySource sourceKey

/-- The timestamp-prefixed log line built by `MonitorCore.writeLog`
(core.py lines 86-87); the wall-clock string is a parameter. -/
def mkLogLine (tsStr msg : String) : String :=
  "[" ++ tsStr ++ "] " ++ msg

/-- `MonitorCore.writeLog` (core.py lines 85-92): append under the log
lock, then truncate to the last `maxLogLines` entries. -/
def writeLog (c : MonitorCore) (tsStr msg : String) : MonitorCore :=
  let l := c.commandLog ++ [mkLogLine tsStr msg]
  { c with commandLog := if maxLogLines < l.length then l.drop (l.length - maxLogLines) else l }

/-- A sequence of `writeLog` calls. -/
def writeLogAll (c : MonitorCore) (ws : List (String × String)) : MonitorCore :=
  ws.foldl (fun acc w => writeLog acc w.1 w.2) c

/-- The dispatch tail of `MonitorCore.execCommand` (core.py lines
262-266): `executor.execCommand(cmdObj)` under `try`, logging
`f"[hostKeySel]: :[s] EXC [type]: [exc]"` on failure.  `execResult` is
the behaviour of the executor's hook; the error string stands for the
exception's type name and message. -/
def execCommandCall (c : MonitorCore) (tsStr hostKeySel s : String)
    (execResult : Except String Unit) : MonitorCore :=
  match execResult with
  | Except.ok _ => c
  | Except.error excMsg =>
    writeLog c tsStr (hostKeySel ++ ": :" ++ s ++ " EXC " ++ excMsg)

/-! ## Foreground lifecycle loops (src/lib/app.py) -/

/-- Equality of hook outcomes is decidable. -/
instance : DecidableEq (Except String Unit) := fun a b =>
  match a, b with
  | Except.ok (), Except.ok () => isTrue rfl
  | Except.error e, Except.error f =>
    if h : e = f then isTrue (by rw [h])
    else isFalse (fun hh => by cases hh; exact h rfl)
  | Except.ok _, Except.error _ => isFalse (fun hh => by cases hh)
  | Except.error _, Except.ok _ => isFalse (fun hh => by cases hh)

/-- The observable behaviour of one plugin instance's lifecycle hooks:
each hook either returns (`Except.ok`) or raises (`Except.error`). -/
structure PluginHook where
  id : Nat
  startResult : Except String Unit := Except.ok ()
  stopResult : Except String Unit := Except.ok ()
  tickResult : Except String Unit := Except.ok ()
deriving DecidableEq

/-- Python `try: call() except Exception: pass` around a hook. -/
def tryCallSwallow (r : Except String Unit) : Except String Unit :=
  match r with
  | Except.ok _ => Except.ok ()
  | Except.error _ => Except.ok ()

/-- `MonitorApp.start` (app.py lines 56-59): `p.start()` is called with
no surrounding `try`, so the first raising hook propagates and the
remaining instances are not started.  Returns how many hooks ran. -/
def appStart : List PluginHook → Except String Nat
  | [] => Except.ok 0
  | p :: rest =>
    match p.startResult with
    | Except.error e => Except.error e
    | Except.ok _ =>
      match appStart rest with
      | Except.error e => Except.error e
      | Except.ok n => Except.ok (n + 1)

/-- `MonitorApp.stop` (app.py lines 61-67): each `p.stop()` is wrapped
in `try ... except Exception: pass`. -/
def appStop : List PluginHook → Except String Nat
  | [] => Except.ok 0
  | p :: rest =>
    match tryCallSwallow p.stopResult with
    | Except.error e => Except.error e
    | Except.ok _ =>
      match appStop rest with
      | Except.error e => Except.error e
      | Except.ok n => Except.ok (n + 1)

/-- `MonitorApp.tick` (app.py lines 69-75): each `p.tick()` is wrapped
in `try ... except Exception: pass`. -/
def appTick : List PluginHook → Except String Nat
  | [] => Except.ok 0
  | p :: rest =>
    match tryCallSwallow p.tickResult with
    | Except.error e => Except.error e
    | Except.ok _ =>
      match appTick rest with
      | Except.error e => Except.error e
      | Except.ok n => Except.ok (n + 1)

/-! ## Trigger state machine (src/plugins/watchdog.py) -/

/-- The `Watchdog` state (watchdog.py lines 37-67) plus the
configuration its transitions read.  `recheckAfterSec` only controls a
sleep inside the rescue thread. -/
structure Watchdog where
  watchWhen : List String := ["bad"]
  runOnFirst : Bool := false
  cooldownSec : ℚ := 60
  recheckAfterSec : ℚ := 10
  lastSeenSeverity : Option String := none
  cooldownUntilTs : ℚ := 0
  runningRescue : Bool := false
deriving DecidableEq

/-- `Watchdog.shouldTrigger` (watchdog.py lines 76-77):
`sevStr in self.watchWhen`; `None` is never a member of a string
list. -/
def shouldTrigger (w : Watchdog) (sevStr : Option String) : Bool :=
  match sevStr with
  | none => false
  | some s => w.watchWhen.contains s

/-- `Watchdog.maybeTrigger` (watchdog.py lines 79-90): a no-op while an
action runs or the cooldown has not elapsed; otherwise marks the rescue
as running and spawns the rescue thread.  The returned flag records
whether an action was actually started. -/
def maybeTrigger (w : Watchdog) (nowTs : ℚ) : Watchdog × Bool :=
  if w.runningRescue then (w, false)
  else if nowTs < w.cooldownUntilTs then (w, false)
  else ({ w with runningRescue := true }, true)

/-- The `finally` block of `Watchdog._runRescueThread` (watchdog.py
lines 115-118), which runs whatever the action did: `outcome` is the
remediation's success or failure and is ignored; `endTs` is the
`time.time()` read inside the block. -/
def runRescueFinally (w : Watchdog) (_outcome : Except String Unit) (endTs : ℚ) :
    Watchdog :=
  { w with cooldownUntilTs := endTs + w.cooldownSec, runningRescue := false }

/-- One iteration of the polling body of `WatchdogPlugin.loop`
(watchdog.py lines 187-206), with `sevStr` the severity read from the
aggregator.  Returns the new state, the number of trigger attempts
(`maybeTrigger` calls) made, and whether an action was started; the
transition log line is an operator-visible side effect that does not
change this state. -/
def pollStep (w : Watchdog) (sevStr : Option String) (nowTs : ℚ) :
    Watchdog × Nat × Bool :=
  match w.lastSeenSeverity with
  | none =>
    let w1 := { w with lastSeenSeverity := sevStr }
    if w.runOnFirst && shouldTrigger w sevStr then
      let r := maybeTrigger w1 nowTs
      (r.1, 1, r.2)
    else (w1, 0, false)
  | some prev =>
    if sevStr ≠ some prev then
      let w1 := { w with lastSeenSeverity := sevStr }
      if shouldTrigger w sevStr then
        let r := maybeTrigger w1 nowTs
        (r.1, 1, r.2)
      else (w1, 0, false)
    else (w, 0, false)

/-! ## Endpoint multiplexer (src/plugins/udp.py) -/

/-- Per-host traffic statistics (`HostStats`, udp.py lines 35-43). -/
structure HostStats where
  lastSeenTs : ℚ := 0
  packetCount : Nat := 0
  byteCount : Nat := 0
  lastRateTs : ℚ := 0
  lastRatePacketCount : Nat := 0
  pps : ℚ := 0
deriving DecidableEq

/-- The configuration and identity of one `UdpPlugin` instance
(udp.py lines 232-258) after parameter parsing.  `id` models Python
object identity, which `removeSub` compares with `is`. -/
structure UdpPlugin where
  id : Nat
  hostKey : String
  bindIp : String := "0.0.0.0"
  port : Int := 5000
  emitEverySec : ℚ := 1 / 4
  okAfterSec : ℚ := 1
  offlineAfterSec : ℚ := 10
  serviceName : String := "UDP"
  showPacketStats : Bool := true
  aliases : List String := []
  logMessages : Bool := false
deriving DecidableEq

/-- The lock-guarded state of one shared listener (`UdpListener`,
udp.py lines 46-60).  `threadRunning` models `threadObj is not None`;
the socket and stop event carry no state the claims read. -/
structure UdpListener where
  bindIp : String
  port : Int
  emitEverySec : ℚ
  threadRunning : Bool := false
  keyMapLower : List (String × String) := []
  statsByHost : List (String × HostStats) := []
  subsByHost : List (String × List UdpPlugin) := []
deriving DecidableEq

/-- `UdpListener.__init__` (udp.py lines 47-60). -/
def mkListener (bindIp : String) (port : Int) (emitEverySec : ℚ) : UdpListener :=
  { bindIp := bindIp, port := port, emitEverySec := emitEverySec }

/-- `UdpListener.start` (udp.py lines 62-67): spawn the worker thread
once. -/
def listenerStart (L : UdpListener) : UdpListener :=
  if L.threadRunning then L else { L with threadRunning := true }

/-- `UdpListener.stopIfIdle` (udp.py lines 69-86): tear the worker and
socket down only when no host has subscribers. -/
def stopIfIdle (L : UdpListener) : UdpListener :=
  if L.subsByHost ≠ [] then L else { L with threadRunning := false }

/-- Python `d.setdefault(k, []).append(p)` on the subscriber map. -/
def alAppendSub (l : List (String × List UdpPlugin)) (k : String) (p : UdpPlugin) :
    List (String × List UdpPlugin) :=
  match l with
  | [] => [(k, [p])]
  | kv :: rest => if kv.1 = k then (k, kv.2 ++ [p]) :: rest else kv :: alAppendSub rest k p

/-- `UdpListener.addSub` (udp.py lines 88-106): register the subscriber,
map the host key and every parsed alias (lower-cased) to the canonical
host key, seed the stats entry, and start the worker. -/
def addSub (L : UdpListener) (p : UdpPlugin) (aliases : List String) : UdpListener :=
  let aliasList := aliases.filterMap (fun a => if pyStrip a = "" then none else some (pyStrip a))
  let L1 :=
    { L with
      subsByHost := alAppendSub L.subsByHost p.hostKey p,
      keyMapLower :=
        aliasList.foldl (fun m a => alSet m (pyLower a) p.hostKey)
          (alSet L.keyMapLower (pyLower p.hostKey) p.hostKey),
      statsByHost := alSetDefault L.statsByHost p.hostKey {} }
  listenerStart L1

/-- `UdpListener.removeSub` (udp.py lines 108-124): drop the instance
from its host's subscriber list; when that list empties, purge the
host's subscriber, stats and alias entries. -/
def removeSub (L : UdpListener) (p : UdpPlugin) : UdpListener :=
  let lst := (alGet L.subsByHost p.hostKey).getD []
  let lst2 := lst.filter (fun q => q.id ≠ p.id)
  if lst2 ≠ [] then
    { L with subsByHost := alSet L.subsByHost p.hostKey lst2 }
  else
    { L with
      subsByHost := alErase L.subsByHost p.hostKey,
      statsByHost := alErase L.statsByHost p.hostKey,
      keyMapLower := L.keyMapLower.filter (fun kv => kv.2 ≠ p.hostKey) }

/-- The process-wide listener table `_udpListenersByKey`
(udp.py line 229), keyed by `(bindIp, port)`. -/
abbrev UdpTable := (String × Int) → Option UdpListener

/-- The attribution step of the receive branch of `UdpListener.loop`
(udp.py lines 188-191): match strictly by the packet's source address,
lower-cased, against the alias map; an absent or empty address matches
nothing. -/
def recvAttribute (L : UdpListener) (senderIp : Option String) : Option String :=
  match senderIp with
  | none => none
  | some ip => if ip = "" then none else alGet L.keyMapLower (pyLower ip)

/-- The state change of the receive branch of `UdpListener.loop`
(udp.py lines 178-206) for one datagram.  `rawStr` models the datagram
bytes decoded as UTF-8, so `len(dataBytes)` is its UTF-8 byte size.
Forwarding the payload to logging-enabled subscribers (lines 199-206)
and swallowed socket errors (lines 208-211) do not change listener
state and are not modelled.  Returns the new state and the canonical
host the datagram was attributed to, if any. -/
def recvStep (L : UdpListener) (senderIp : Option String) (rawStr : String)
    (nowTs : ℚ) : UdpListener × Option String :=
  match recvAttribute L senderIp with
  | none => (L, none)
  | some canonical =>
    let st := (alGet L.statsByHost canonical).getD {}
    let st2 :=
      { st with
        lastSeenTs := nowTs,
        packetCount := st.packetCount + 1,
        byteCount := st.byteCount + rawStr.utf8ByteSize }
    ({ L with statsByHost := alSet L.statsByHost canonical st2 }, some canonical)

/-- The per-entry body of `UdpListener.updateRatesLocked`
(udp.py lines 126-141). -/
def updateRateOne (nowTs : ℚ) (st : HostStats) : HostStats :=
  if st.lastRateTs ≤ 0 then
    { st with lastRateTs := nowTs, lastRatePacketCount := st.packetCount, pps := 0 }
  else
    let dt := nowTs - st.lastRateTs
    if dt ≤ 0 then st
    else
      let dp : Int := (st.packetCount : Int) - (st.lastRatePacketCount : Int)
      { st with
        pps := max 0 ((dp : ℚ) / dt),
        lastRateTs := nowTs,
        lastRatePacketCount := st.packetCount }

/-- `UdpListener.updateRatesLocked` (udp.py lines 126-141): apply the
rate update to every tracked host's stats. -/
def updateRatesLocked (nowTs : ℚ) (stats : List (String × HostStats)) :
    List (String × HostStats) :=
  stats.map (fun kv => (kv.1, updateRateOne nowTs kv.2))

/-- `UdpPlugin.start` (udp.py lines 279-286), the listener-table part:
get or create the endpoint's listener, then subscribe.  The initial
OFFLINE row written at lines 264-277 is `udpStartRow` below. -/
def udpStart (tbl : UdpTable) (p : UdpPlugin) : UdpTable :=
  let key := (p.bindIp, p.port)
  match tbl key with
  | none =>
    upd tbl key (some (addSub (mkListener p.bindIp p.port p.emitEverySec) p p.aliases))
  | some L => upd tbl key (some (addSub L p p.aliases))

/-- `UdpPlugin.stop` (udp.py lines 288-301): unsubscribe, tear the
listener down if idle, and drop it from the table when its worker is
gone.  Models the path where `self.listener` was set by `start`. -/
def udpStop (tbl : UdpTable) (p : UdpPlugin) : UdpTable :=
  let key := (p.bindIp, p.port)
  match tbl key with
  | none => tbl
  | some L =>
    let L2 := stopIfIdle (removeSub L p)
    if L2.threadRunning then upd tbl key (some L2) else upd tbl key none

/-- Total number of subscriptions held by a listener, summed over
hosts. -/
def totalSubs (L : UdpListener) : Nat :=
  (L.subsByHost.map (fun kv => kv.2.length)).sum

/-- The decimal rendering used for `f"(udpPps=[pps:.1f])"`; one digit
after the point, rounding ties upward where Python rounds to even —
immaterial to every claim, which only read severities. -/
def fmtQ1 (q : ℚ) : String :=
  let n : Int := round (q * 10)
  (if n < 0 then "-" else "") ++ toString (n.natAbs / 10) ++ "." ++ toString (n.natAbs % 10)

/-- The initial OFFLINE row written by `UdpPlugin.start`
(udp.py lines 263-277). -/
def udpStartRow (p : UdpPlugin) : TableRow :=
  { host := p.hostKey,
    ip := none,
    source := "udp",
    text := p.serviceName ++ ": OFFLINE" ++ (if p.showPacketStats then " (udpPps=0.0)" else ""),
    severity := "bad",
    ts := 0 }

/-- `UdpPlugin.emitStatus` (udp.py lines 306-339): classify staleness
from the subscriber's own thresholds and build the status row. -/
def emitStatus (p : UdpPlugin) (nowTs : ℚ) (st : HostStats) : TableRow :=
  let lastSeen := st.lastSeenTs
  let r : String × String × ℚ :=
    if lastSeen ≤ 0 then ("bad", "OFFLINE", 0)
    else
      let age := nowTs - lastSeen
      if age ≥ p.offlineAfterSec then ("bad", "OFFLINE", lastSeen)
      else if age ≥ p.okAfterSec then ("warn", "WARN", lastSeen)
      else ("ok", "OK", lastSeen)
  let suffix := if p.showPacketStats then " (udpPps=" ++ fmtQ1 st.pps ++ ")" else ""
  { host := p.hostKey,
    ip := none,
    source := "udp",
    text := p.serviceName ++ ": " ++ r.2.1 ++ suffix,
    severity := r.1,
    ts := r.2.2 }

/-! ## Helper lemmas -/

theorem upd_self {κ α : Type} [DecidableEq κ] (m : κ → Option α) (k : κ) (v : Option α) :
    upd m k v k = v := by
  simp [upd]

theorem upd_other {κ α : Type} [DecidableEq κ] (m : κ → Option α) (k k' : κ)
    (v : Option α) (h : k' ≠ k) : upd m k v k' = m k' := by
  simp [upd, h]

/-- The last `k` entries of a list, which is what the Python slice
`l[-k:]` keeps. -/
def lastN {α : Type} (k : Nat) (l : List α) : List α :=
  l.drop (l.length - k)

theorem lastN_of_le {α : Type} (k : Nat) (l : List α) (h : l.length ≤ k) :
    lastN k l = l := by
  unfold lastN
  have h0 : l.length - k = 0 := by omega
  rw [h0, List.drop_zero]

theorem lastN_length_le {α : Type} (k : Nat) (l : List α) : (lastN k l).length ≤ k ∨ l.length ≤ k := by
  unfold lastN
  rw [List.length_drop]
  omega

theorem drop_congr {α : Type} (l : List α) {m n : Nat} (h : m = n) :
    l.drop m = l.drop n := by
  rw [h]

theorem lastN_append {α : Type} (k : Nat) (a b : List α) :
    lastN k (lastN k a ++ b) = lastN k (a ++ b) := by
  unfold lastN
  simp only [List.drop_append_eq_append_drop, List.drop_drop, List.length_append,
    List.length_drop]
  exact congrArg₂ _ (drop_congr a (by omega)) (drop_congr b (by omega))

theorem lastN_append_right {α : Type} (k : Nat) (a b : List α) (h : k ≤ b.length) :
    lastN k (a ++ b) = lastN k b := by
  unfold lastN
  rw [List.drop_append_eq_append_drop, List.length_append]
  rw [List.drop_eq_nil_of_le (by omega : a.length ≤ a.length + b.length - k)]
  rw [List.nil_append]
  exact drop_congr b (by omega)

theorem writeLog_commandLog (c : MonitorCore) (tsStr msg : String) :
    (writeLog c tsStr msg).commandLog =
      lastN maxLogLines (c.commandLog ++ [mkLogLine tsStr msg]) := by
  simp only [writeLog, lastN]
  split
  · rfl
  · next h =>
    have h0 : (c.commandLog ++ [mkLogLine tsStr msg]).length - maxLogLines = 0 := by omega
    rw [h0, List.drop_zero]

theorem writeLog_commandLog_length (c : MonitorCore) (tsStr msg : String) :
    (writeLog c tsStr msg).commandLog.length ≤ maxLogLines := by
  rw [writeLog_commandLog]
  unfold lastN
  rw [List.length_drop, List.length_append]
  simp only [List.length_cons, List.length_nil]
  omega

theorem writeLogAll_commandLog (ws : List (String × String)) :
    ∀ c : MonitorCore, c.commandLog.length ≤ maxLogLines →
      (writeLogAll c ws).commandLog =
        lastN maxLogLines (c.commandLog ++ ws.map (fun w => mkLogLine w.1 w.2)) := by
  induction ws with
  | nil =>
    intro c h
    simp only [writeLogAll, List.foldl_nil, List.map_nil, List.append_nil]
    rw [lastN_of_le _ _ h]
  | cons w ws ih =>
    intro c h
    have step : writeLogAll c (w :: ws) = writeLogAll (writeLog c w.1 w.2) ws := by
      simp only [writeLogAll, List.foldl_cons]
    rw [step, ih _ (writeLog_commandLog_length c w.1 w.2), writeLog_commandLog,
      lastN_append, List.map_cons, List.append_assoc, List.singleton_append]

/-- Claim C8: after a sequence of more than `maxLogLines` (= 512) calls
to `writeLog`, the command log holds exactly the last 512 appended
lines, in append order, each of them a timestamp-prefixed `mkLogLine`;
the truncation drops the oldest entries.  (The dedicated log lock is a
runtime mutual-exclusion artefact with no sequential state; the
functional content of the claim is proved here.) -/
theorem claimC8_thm (c : MonitorCore) (ws : List (String × String))
    (h : maxLogLines < ws.length) :
    (writeLogAll c ws).commandLog =
      (ws.map (fun w => mkLogLine w.1 w.2)).drop (ws.length - maxLogLines) := by
  cases ws with
  | nil => simp at h
  | cons w ws' =>
    have step : writeLogAll c (w :: ws') = writeLogAll (writeLog c w.1 w.2) ws' := by
      simp only [writeLogAll, List.foldl_cons]
    rw [step, writeLogAll_commandLog ws' _ (writeLog_commandLog_length c w.1 w.2),
      writeLog_commandLog, lastN_append, List.append_assoc]
    have hlen : maxLogLines ≤ ([mkLogLine w.1 w.2] ++ ws'.map (fun x => mkLogLine x.1 x.2)).length := by
      rw [List.length_append, List.length_map]
      simp only [List.length_cons, List.length_nil]
      simp only [List.length_cons] at h
      omega
    rw [lastN_append_right _ _ _ hlen]
    unfold lastN
    rw [List.singleton_append, List.map_cons]
    exact drop_congr _ (by simp only [List.length_cons, List.length_map])

/-- Witness for C8 at a concrete input: 513 writes into an empty log. -/
theorem claimC8_wit :
    maxLogLines < (List.replicate 513 ("00:00:00", "msg")).length ∧
      (writeLogAll { pluginRegistry := fun _ => none } (List.replicate 513 ("00:00:00", "msg"))).commandLog =
        ((List.replicate 513 ("00:00:00", "msg")).map (fun w => mkLogLine w.1 w.2)).drop
          ((List.replicate 513 ("00:00:00", "msg")).length - maxLogLines) :=
  ⟨by rw [List.length_replicate]; decide, claimC8_thm _ _ (by rw [List.length_replicate]; decide)⟩

/-- Claim C2, counterexample: an exception raised inside a plugin
instance's `start()` is NOT caught at the call site — `MonitorApp.start`
(app.py lines 56-59) has no `try`, so the failure propagates to the
caller of the foreground loop, contrary to the claim that exceptions
from `start` are never propagated. -/
theorem claimC2_cex :
    appStart [{ id := 0, startResult := Except.error "boom" }] = Except.error "boom" := by
  rfl

/-- Claim C2, amended: exceptions raised inside `stop()` and `tick()`
are caught at the call site and silently suppressed (not logged), so
every instance's hook is invoked and no exception reaches the caller;
an exception from an instance's `execCommand()` during dispatch is
caught and logged with the host key and command token; but an exception
inside `start()` is not caught — `MonitorApp.start` propagates it and
the remaining instances are not started. -/
theorem claimC2_thm :
    (∀ ps : List PluginHook, appStop ps = Except.ok ps.length) ∧
    (∀ ps : List PluginHook, appTick ps = Except.ok ps.length) ∧
    (∀ (c : MonitorCore) (tsStr hostKeySel s excMsg : String),
      execCommandCall c tsStr hostKeySel s (Except.error excMsg) =
        writeLog c tsStr (hostKeySel ++ ": :" ++ s ++ " EXC " ++ excMsg)) ∧
    (∀ (c : MonitorCore) (tsStr hostKeySel s : String),
      execCommandCall c tsStr hostKeySel s (Except.ok ()) = c) ∧
    (∀ (i : Nat) (e : String) (rest : List PluginHook),
      appStart ({ id := i, startResult := Except.error e } :: rest) = Except.error e) := by
  refine ⟨?_, ?_, ?_, ?_, ?_⟩
  · intro ps
    induction ps with
    | nil => rfl
    | cons p rest ih =>
      simp only [appStop, tryCallSwallow, ih, List.length_cons]
      cases p.stopResult <;> rfl
  · intro ps
    induction ps with
    | nil => rfl
    | cons p rest ih =>
      simp only [appTick, tryCallSwallow, ih, List.length_cons]
      cases p.tickResult <;> rfl
  · intro c tsStr hostKeySel s excMsg
    rfl
  · intro c tsStr hostKeySel s
    rfl
  · intro i e rest
    rfl

/-- Claim C4: with watched-severity set containing exactly "bad", a
poll that sees a transition from a different previous severity to "bad"
makes exactly one trigger attempt; a poll that reads the severity
already recorded in `lastSeenSeverity` attempts nothing and leaves the
state unchanged; a trigger attempt while an action is running or the
cooldown has not elapsed is a no-op; and the `finally` block after an
executed action enters the cooldown window and clears the running flag
whatever the action's outcome was. -/
theorem claimC4_thm :
    (∀ (w : Watchdog) (prev : String) (nowTs : ℚ),
      w.watchWhen = ["bad"] → w.lastSeenSeverity = some prev → prev ≠ "bad" →
        (pollStep w (some "bad") nowTs).2.1 = 1) ∧
    (∀ (w : Watchdog) (s : String) (nowTs : ℚ),
      w.lastSeenSeverity = some s → pollStep w (some s) nowTs = (w, 0, false)) ∧
    (∀ (w : Watchdog) (nowTs : ℚ),
      w.runningRescue = true ∨ nowTs < w.cooldownUntilTs →
        maybeTrigger w nowTs = (w, false)) ∧
    (∀ (w : Watchdog) (outcome : Except String Unit) (endTs : ℚ),
      (runRescueFinally w outcome endTs).cooldownUntilTs = endTs + w.cooldownSec ∧
        (runRescueFinally w outcome endTs).runningRescue = false) := by
  refine ⟨?_, ?_, ?_, ?_⟩
  · intro w prev nowTs hw hlast hne
    simp only [pollStep, hlast]
    have hneq : (some "bad" : Option String) ≠ some prev := by
      intro hc
      exact hne (Option.some.inj hc).symm
    rw [if_pos hneq]
    have hsh : shouldTrigger w (some "bad") = true := by
      simp [shouldTrigger, hw]
    rw [hsh]
    simp only [if_true]
  · intro w s nowTs hlast
    simp only [pollStep, hlast]
    rw [if_neg (by simp)]
  · intro w nowTs h
    unfold maybeTrigger
    rcases h with h | h
    · rw [if_pos h]
    · by_cases hr : w.runningRescue
      · rw [if_pos hr]
      · rw [if_neg hr, if_pos h]
  · intro w outcome endTs
    exact ⟨rfl, rfl⟩

/-- Witness for C4 at a concrete state: a watchdog that last saw "ok"
and now reads "bad" with no rescue running and an elapsed cooldown. -/
theorem claimC4_wit :
    ({ lastSeenSeverity := some "ok" } : Watchdog).watchWhen = ["bad"] ∧
      (pollStep { lastSeenSeverity := some "ok" } (some "bad") 100).2.1 = 1 :=
  ⟨rfl, claimC4_thm.1 { lastSeenSeverity := some "ok" } "ok" 100 rfl rfl (by decide)⟩

/-- Claim C9: on the first poll (null `lastSeenSeverity`) the observed
severity becomes the baseline, and a trigger attempt is made on that
observation precisely when `runOnFirst` is set and the observed severity
is in the watched set; with `runOnFirst` unset nothing is attempted. -/
theorem claimC9_thm (w : Watchdog) (sevStr : Option String) (nowTs : ℚ)
    (hfirst : w.lastSeenSeverity = none) :
    (pollStep w sevStr nowTs).1.lastSeenSeverity = sevStr ∧
    ((pollStep w sevStr nowTs).2.1 = 1 ↔
      (w.runOnFirst = true ∧ shouldTrigger w sevStr = true)) ∧
    (w.runOnFirst = false → (pollStep w sevStr nowTs).2.1 = 0) := by
  simp only [pollStep, hfirst]
  by_cases hr : w.runOnFirst && shouldTrigger w sevStr
  · rw [if_pos hr]
    refine ⟨?_, ?_, ?_⟩
    · unfold maybeTrigger
      by_cases h1 : w.runningRescue
      · simp [h1]
      · by_cases h2 : nowTs < w.cooldownUntilTs
        · simp [h1, h2]
        · simp [h1, h2]
    · simp only [true_iff]
      exact And.intro (Bool.and_elim_left hr) (Bool.and_elim_right hr)
    · intro hro
      rw [hro] at hr
      simp at hr
  · rw [if_neg hr]
    refine ⟨rfl, ?_, fun _ => rfl⟩
    constructor
    · intro h
      simp at h
    · intro ⟨h1, h2⟩
      rw [h1, h2] at hr
      simp at hr

/-- Witness for C9 at a concrete state: first observation "bad" with
`runOnFirst` set. -/
theorem claimC9_wit :
    ({ runOnFirst := true } : Watchdog).lastSeenSeverity = none ∧
      (pollStep { runOnFirst := true } (some "bad") 5).1.lastSeenSeverity = some "bad" :=
  ⟨rfl, (claimC9_thm { runOnFirst := true } (some "bad") 5 rfl).1⟩

/-- Claim C7: the status emitted for a subscriber classifies staleness
from its own thresholds: an unset (non-positive) last-seen timestamp
gives severity "bad" (OFFLINE) with timestamp 0; an age of at least
`offlineAfterSec` gives "bad"; an age of at least `okAfterSec` but below
`offlineAfterSec` gives "warn"; otherwise "ok". -/
theorem claimC7_thm (p : UdpPlugin) (nowTs : ℚ) (st : HostStats) :
    (st.lastSeenTs ≤ 0 →
      (emitStatus p nowTs st).severity = "bad" ∧ (emitStatus p nowTs st).ts = 0) ∧
    (0 < st.lastSeenTs → p.offlineAfterSec ≤ nowTs - st.lastSeenTs →
      (emitStatus p nowTs st).severity = "bad") ∧
    (0 < st.lastSeenTs → nowTs - st.lastSeenTs < p.offlineAfterSec →
      p.okAfterSec ≤ nowTs - st.lastSeenTs →
      (emitStatus p nowTs st).severity = "warn") ∧
    (0 < st.lastSeenTs → nowTs - st.lastSeenTs < p.offlineAfterSec →
      nowTs - st.lastSeenTs < p.okAfterSec →
      (emitStatus p nowTs st).severity = "ok") := by
  refine ⟨?_, ?_, ?_, ?_⟩
  · intro h
    simp only [emitStatus, if_pos h]
    exact ⟨by simp, by simp⟩
  · intro h1 h2
    simp only [emitStatus, if_neg (not_le.mpr h1), if_pos (le_iff_lt_or_eq.mp h2).symm]
    rw [if_pos h2]
  · intro h1 h2 h3
    simp only [emitStatus, if_neg (not_le.mpr h1)]
    rw [if_neg (not_le.mpr h2), if_pos h3]
  · intro h1 h2 h3
    simp only [emitStatus, if_neg (not_le.mpr h1)]
    rw [if_neg (not_le.mpr h2), if_neg (not_le.mpr h3)]

/-- Witness for C7 at concrete inputs: thresholds 1 and 10, last seen at
time 5, sampled at time 7 — age 2 is in the WARN band. -/
theorem claimC7_wit :
    (0 : ℚ) < 5 ∧
      (emitStatus { id := 0, hostKey := "h" } 7 { lastSeenTs := 5 }).severity = "warn" :=
  ⟨by norm_num,
    (claimC7_thm { id := 0, hostKey := "h" } 7 { lastSeenTs := 5 }).2.2.1
      (by norm_num) (by norm_num) (by norm_num)⟩

/-- Looking a key up after `updateRatesLocked` sees the per-entry
update of the value stored before. -/
theorem alGet_updateRatesLocked (nowTs : ℚ) (stats : List (String × HostStats))
    (h : String) :
    alGet (updateRatesLocked nowTs stats) h = (alGet stats h).map (updateRateOne nowTs) := by
  induction stats with
  | nil => rfl
  | cons kv rest ih =>
    simp only [updateRatesLocked, List.map_cons, alGet]
    by_cases hk : kv.1 = h
    · rw [if_pos hk, if_pos hk]
      rfl
    · rw [if_neg hk, if_neg hk]
      exact ih

/-- Claim C6: the first rate sample for a host (unset
`lastRateTimestamp`) seeds the baseline — records the sample time and
current packet count — and reports zero packets-per-second; any later
sample with positive elapsed time and a packet count that has not moved
backwards reports exactly (currentPacketCount − lastRatePacketCount) /
(now − lastRateTimestamp) and advances the baseline; and
`updateRatesLocked` applies this update to every tracked host's
entry. -/
theorem claimC6_thm :
    (∀ (nowTs : ℚ) (st : HostStats), st.lastRateTs ≤ 0 →
      updateRateOne nowTs st =
        { st with lastRateTs := nowTs, lastRatePacketCount := st.packetCount, pps := 0 }) ∧
    (∀ (nowTs : ℚ) (st : HostStats), 0 < st.lastRateTs → 0 < nowTs - st.lastRateTs →
      st.lastRatePacketCount ≤ st.packetCount →
      (updateRateOne nowTs st).pps =
          ((st.packetCount : ℚ) - (st.lastRatePacketCount : ℚ)) / (nowTs - st.lastRateTs) ∧
        (updateRateOne nowTs st).lastRateTs = nowTs ∧
        (updateRateOne nowTs st).lastRatePacketCount = st.packetCount) ∧
    (∀ (nowTs : ℚ) (stats : List (String × HostStats)) (h : String),
      alGet (updateRatesLocked nowTs stats) h = (alGet stats h).map (updateRateOne nowTs)) := by
  refine ⟨?_, ?_, alGet_updateRatesLocked⟩
  · intro nowTs st h
    simp only [updateRateOne, if_pos h]
  · intro nowTs st h1 h2 h3
    simp only [updateRateOne, if_neg (not_le.mpr h1), if_neg (not_le.mpr h2)]
    refine ⟨?_, by simp, by simp⟩
    have hcast : (((st.packetCount : Int) - (st.lastRatePacketCount : Int) : Int) : ℚ) =
        (st.packetCount : ℚ) - (st.lastRatePacketCount : ℚ) := by
      push_cast
      ring
    rw [hcast]
    refine max_eq_right (div_nonneg ?_ (le_of_lt h2))
    have : (st.lastRatePacketCount : ℚ) ≤ (st.packetCount : ℚ) := by
      exact_mod_cast h3
    linarith

/-- Witness for C6 at a concrete stat: baseline packet count 10 at time
2, current count 30 sampled at time 6 — rate 5. -/
theorem claimC6_wit :
    (0 : ℚ) < 2 ∧
      (updateRateOne 6 { lastRateTs := 2, lastRatePacketCount := 10, packetCount := 30 }).pps =
        ((30 : ℚ) - 10) / (6 - 2) :=
  ⟨by norm_num,
    (claimC6_thm.2.1 6 { lastRateTs := 2, lastRatePacketCount := 10, packetCount := 30 }
      (by norm_num) (by norm_num) (by norm_num)).1⟩

theorem alGet_alSet_self {κ α : Type} [DecidableEq κ] (l : List (κ × α)) (k : κ) (v : α) :
    alGet (alSet l k v) k = some v := by
  induction l with
  | nil => simp [alGet, alSet]
  | cons kv rest ih =>
    by_cases hk : kv.1 = k
    · simp [alSet, hk, alGet]
    · simp only [alSet, if_neg hk, alGet, if_neg hk]
      exact ih

theorem alGet_alSet_other {κ α : Type} [DecidableEq κ] (l : List (κ × α)) (k k' : κ)
    (v : α) (h : k' ≠ k) : alGet (alSet l k v) k' = alGet l k' := by
  induction l with
  | nil =>
    simp only [alSet, alGet]
    exact if_neg (fun hc : k = k' => h hc.symm)
  | cons kv rest ih =>
    by_cases hk : kv.1 = k
    · simp only [alSet, if_pos hk, alGet]
      rw [if_neg (fun hc : k = k' => h hc.symm),
        if_neg (fun hc : kv.1 = k' => h (hk.symm.trans hc).symm)]
    · simp only [alSet, if_neg hk, alGet]
      by_cases hk' : kv.1 = k'
      · rw [if_pos hk', if_pos hk']
      · rw [if_neg hk', if_neg hk']
        exact ih

/-- Claim C3: an inbound datagram is attributed to a canonical host
solely from its network source address matched (lower-cased) against
the alias map.  Two datagrams from the same source address are
attributed to the same host whatever their payloads declare; only the
attributed host's stats entry changes; a datagram whose source address
matches no alias leaves the listener state untouched; and an attributed
datagram bumps the host's packet counter.  (The payload-parsing helper
`parseIncomingKey`, udp.py lines 143-157, is never called by the
receive loop.) -/
theorem claimC3_thm (L : UdpListener) (senderIp : Option String)
    (rawStr rawStr2 : String) (nowTs : ℚ) :
    ((recvStep L senderIp rawStr nowTs).2 = (recvStep L senderIp rawStr2 nowTs).2) ∧
    (recvAttribute L senderIp = none → recvStep L senderIp rawStr nowTs = (L, none)) ∧
    (∀ h : String, recvAttribute L senderIp ≠ some h →
      alGet (recvStep L senderIp rawStr nowTs).1.statsByHost h = alGet L.statsByHost h) ∧
    (∀ canonical : String, recvAttribute L senderIp = some canonical →
      (alGet (recvStep L senderIp rawStr nowTs).1.statsByHost canonical).map
          HostStats.packetCount =
        some (((alGet L.statsByHost canonical).getD {}).packetCount + 1)) := by
  refine ⟨?_, ?_, ?_, ?_⟩
  · unfold recvStep
    cases recvAttribute L senderIp <;> rfl
  · intro h
    unfold recvStep
    rw [h]
  · intro h hne
    unfold recvStep
    cases hc : recvAttribute L senderIp with
    | none => rfl
    | some canonical =>
      have hch : canonical ≠ h := by
        intro hh
        exact hne (hh ▸ hc)
      simp only
      exact alGet_alSet_other _ _ _ _ (fun hh => hch hh.symm)
  · intro canonical hc
    unfold recvStep
    rw [hc]
    simp only [alGet_alSet_self]
    rfl

/-- Witness for C3 at a concrete listener: alias "10.0.0.7" maps to
host "X"; a datagram from an unknown source address changes nothing,
whatever its payload declares. -/
theorem claimC3_wit :
    (recvAttribute { bindIp := "0.0.0.0", port := 5000, emitEverySec := 1, keyMapLower := [("10.0.0.7", "X")] } (some "9.9.9.9") = none) ∧
      recvStep { bindIp := "0.0.0.0", port := 5000, emitEverySec := 1, keyMapLower := [("10.0.0.7", "X")] } (some "9.9.9.9") "name=other" 3 =
        ({ bindIp := "0.0.0.0", port := 5000, emitEverySec := 1, keyMapLower := [("10.0.0.7", "X")] }, none) :=
  ⟨by decide,
    (claimC3_thm { bindIp := "0.0.0.0", port := 5000, emitEverySec := 1, keyMapLower := [("10.0.0.7", "X")] } (some "9.9.9.9") "name=other" "x" 3).2.1
      (by decide)⟩

theorem alGet_alErase_self {κ α : Type} [DecidableEq κ] (l : List (κ × α)) (k : κ) :
    alGet (alErase l k) k = none := by
  induction l with
  | nil => rfl
  | cons kv rest ih =>
    by_cases hk : kv.1 = k
    · simp only [alErase, List.filter_cons, hk]
      simpa [alErase] using ih
    · simp only [alErase, List.filter_cons]
      rw [if_pos (by simp [hk])]
      simp only [alGet, if_neg hk]
      simpa [alErase] using ih

theorem totalSubs_alAppendSub (l : List (String × List UdpPlugin)) (k : String)
    (p : UdpPlugin) :
    ((alAppendSub l k p).map (fun kv => kv.2.length)).sum =
      ((l.map (fun kv => kv.2.length)).sum) + 1 := by
  induction l with
  | nil => simp [alAppendSub]
  | cons kv rest ih =>
    by_cases hk : kv.1 = k
    · simp only [alAppendSub, if_pos hk, List.map_cons, List.sum_cons, List.length_append]
      simp only [List.length_cons, List.length_nil]
      omega
    · simp only [alAppendSub, if_neg hk, List.map_cons, List.sum_cons, ih]
      omega

/-- Subscribing never changes the subscriber map except by appending
the one new instance, so it grows the subscription count by one. -/
theorem subs_listenerStart (L : UdpListener) :
    (listenerStart L).subsByHost = L.subsByHost := by
  unfold listenerStart
  split <;> rfl

theorem totalSubs_addSub (L : UdpListener) (p : UdpPlugin) (aliases : List String) :
    totalSubs (addSub L p aliases) = totalSubs L + 1 := by
  simp only [totalSubs, addSub]
  rw [subs_listenerStart]
  exact totalSubs_alAppendSub L.subsByHost p.hostKey p

/-- Folding `udpStart` over plugins of one endpoint attaches each of
them to the listener already stored there. -/
theorem foldStart_some (ps : List UdpPlugin) :
    ∀ (tbl : UdpTable) (L : UdpListener) (b : String) (prt : Int),
      (∀ p ∈ ps, p.bindIp = b ∧ p.port = prt) → tbl (b, prt) = some L →
      ∃ L2, (ps.foldl udpStart tbl) (b, prt) = some L2 ∧
        totalSubs L2 = totalSubs L + ps.length := by
  induction ps with
  | nil =>
    intro tbl L b prt _ htbl
    exact ⟨L, htbl, by simp⟩
  | cons p ps ih =>
    intro tbl L b prt hall htbl
    obtain ⟨hb, hp⟩ := hall p (List.mem_cons_self p ps)
    have hkey : (p.bindIp, p.port) = (b, prt) := by rw [hb, hp]
    have hstep : udpStart tbl p (b, prt) = some (addSub L p p.aliases) := by
      unfold udpStart
      rw [hkey, htbl]
      exact upd_self _ _ _
    have hall2 : ∀ q ∈ ps, q.bindIp = b ∧ q.port = prt :=
      fun q hq => hall q (List.mem_cons_of_mem p hq)
    obtain ⟨L2, hfold, hcount⟩ := ih (udpStart tbl p) (addSub L p p.aliases) b prt hall2 hstep
    refine ⟨L2, ?_, ?_⟩
    · simpa [List.foldl_cons] using hfold
    · rw [hcount, totalSubs_addSub]
      simp only [List.length_cons]
      omega

/-- Claim C5: the process-wide listener table keeps exactly one
listener per endpoint — the first subscriber creates it and later ones
attach to the same listener, so after any number of subscriptions the
endpoint's single listener carries them all; unsubscribing the last
subscriber of a host purges the host's stats and every alias entry
mapping to it; and when the last subscriber of the whole endpoint
unsubscribes, the listener is stopped and removed, leaving no listener
for that key. -/
theorem claimC5_thm :
    (∀ (tbl : UdpTable) (p : UdpPlugin), tbl (p.bindIp, p.port) = none →
      udpStart tbl p (p.bindIp, p.port) =
        some (addSub (mkListener p.bindIp p.port p.emitEverySec) p p.aliases)) ∧
    (∀ (tbl : UdpTable) (p : UdpPlugin) (L : UdpListener),
      tbl (p.bindIp, p.port) = some L →
      udpStart tbl p (p.bindIp, p.port) = some (addSub L p p.aliases)) ∧
    (∀ (ps : List UdpPlugin) (tbl : UdpTable) (b : String) (prt : Int),
      tbl (b, prt) = none → (∀ p ∈ ps, p.bindIp = b ∧ p.port = prt) → ps ≠ [] →
      ∃ L, (ps.foldl udpStart tbl) (b, prt) = some L ∧ totalSubs L = ps.length) ∧
    (∀ (L : UdpListener) (p : UdpPlugin),
      (∀ q ∈ (alGet L.subsByHost p.hostKey).getD [], q.id = p.id) →
      alGet (removeSub L p).statsByHost p.hostKey = none ∧
        ∀ kv ∈ (removeSub L p).keyMapLower, kv.2 ≠ p.hostKey) ∧
    (∀ (tbl : UdpTable) (p : UdpPlugin) (L : UdpListener),
      tbl (p.bindIp, p.port) = some L → (removeSub L p).subsByHost = [] →
      udpStop tbl p (p.bindIp, p.port) = none) := by
  refine ⟨?_, ?_, ?_, ?_, ?_⟩
  · intro tbl p htbl
    unfold udpStart
    rw [htbl]
    exact upd_self _ _ _
  · intro tbl p L htbl
    unfold udpStart
    rw [htbl]
    exact upd_self _ _ _
  · intro ps tbl b prt htbl hall hne
    cases ps with
    | nil => exact absurd rfl hne
    | cons p ps =>
      obtain ⟨hb, hp⟩ := hall p (List.mem_cons_self p ps)
      have hkey : (p.bindIp, p.port) = (b, prt) := by rw [hb, hp]
      have hstep : udpStart tbl p (b, prt) =
          some (addSub (mkListener p.bindIp p.port p.emitEverySec) p p.aliases) := by
        unfold udpStart
        rw [hkey, htbl]
        exact upd_self _ _ _
      have hall2 : ∀ q ∈ ps, q.bindIp = b ∧ q.port = prt :=
        fun q hq => hall q (List.mem_cons_of_mem p hq)
      obtain ⟨L2, hfold, hcount⟩ :=
        foldStart_some ps (udpStart tbl p) _ b prt hall2 hstep
      refine ⟨L2, by simpa [List.foldl_cons] using hfold, ?_⟩
      rw [hcount, totalSubs_addSub]
      have h0 : totalSubs (mkListener p.bindIp p.port p.emitEverySec) = 0 := rfl
      rw [h0]
      simp only [List.length_cons]
      omega
  · intro L p hall
    have hfil : ((alGet L.subsByHost p.hostKey).getD []).filter (fun q => q.id ≠ p.id) = [] := by
      rw [List.filter_eq_nil_iff]
      intro q hq
      simp [hall q hq]
    simp only [removeSub]
    rw [hfil]
    rw [if_neg (fun hc => hc rfl)]
    refine ⟨alGet_alErase_self _ _, ?_⟩
    intro kv hkv
    have := List.mem_filter.mp hkv
    simpa using this.2
  · intro tbl p L htbl hsub
    have hrun : (stopIfIdle (removeSub L p)).threadRunning = false := by
      unfold stopIfIdle
      rw [hsub]
      simp
    simp only [udpStop, htbl, hrun]
    rw [if_neg (by simp)]
    exact upd_self _ _ _

/-- Witness for C5 at a concrete input: one plugin subscribing to an
empty table yields exactly one listener holding its one
subscription. -/
theorem claimC5_wit :
    ((fun _ => none : UdpTable) ("0.0.0.0", 5000) = none) ∧
      ∃ L, ([({ id := 0, hostKey := "a" } : UdpPlugin)].foldl udpStart (fun _ => none))
          ("0.0.0.0", 5000) = some L ∧ totalSubs L = 1 :=
  ⟨rfl,
    claimC5_thm.2.2.1 [{ id := 0, hostKey := "a" }] (fun _ => none) "0.0.0.0" 5000 rfl
      (by intro p hp; simp at hp; rw [hp]; exact ⟨rfl, rfl⟩) (by simp)⟩

theorem ensureHost_registry (c : MonitorCore) (hostKey : String) :
    (ensureHost c hostKey).pluginRegistry = c.pluginRegistry := by
  simp only [ensureHost]
  split <;> rfl

theorem ensureHost_cache (c : MonitorCore) (hostKey : String) :
    (ensureHost c hostKey).lastRowByHostBaseType = c.lastRowByHostBaseType := by
  simp only [ensureHost]
  split <;> rfl

/-- `writeTableRow` never touches the secondary cache. -/
theorem writeTableRow_cache (c : MonitorCore) (row : TableRow) :
    (writeTableRow c row).lastRowByHostBaseType = c.lastRowByHostBaseType := by
  simp only [writeTableRow]
  split
  · split
    · exact ensureHost_cache c row.host
    · exact ensureHost_cache c row.host
  · exact ensureHost_cache c row.host

/-- `ensureHost` never changes any visible row entry: it either leaves
the host map alone or installs a fresh host state with an empty row
map. -/
theorem visibleRow_ensureHost (c : MonitorCore) (hostKey h sourceKey : String) :
    visibleRow (ensureHost c hostKey) h sourceKey = visibleRow c h sourceKey := by
  unfold visibleRow ensureHost
  cases hm : c.hostsByName (pyOr (pyStrip hostKey) "?") with
  | some st => simp only [hm]
  | none =>
    simp only [hm, upd]
    by_cases hh : h = pyOr (pyStrip hostKey) "?"
    · rw [if_pos hh, hh, hm]
    · rw [if_neg hh]

theorem fixRow_source (hostKey : String) (row : TableRow) :
    (fixRow hostKey row).source = row.source := by
  unfold fixRow
  split <;> rfl

theorem fixRow_severity (hostKey : String) (row : TableRow) :
    (fixRow hostKey row).severity = row.severity := by
  unfold fixRow
  split <;> rfl

/-- Under the intended use of `writeTable` (the row carries the host
key it is written for, or no host at all), the stamped row's host is
exactly the trimmed, nonempty host key. -/
theorem fixRow_host (h : String) (row : TableRow) (hstrip : pyStrip h = h)
    (hne : h ≠ "") (hhost : row.host = "" ∨ row.host = h) :
    (fixRow h row).host = h := by
  unfold fixRow
  rcases hhost with h0 | h0
  · rw [if_neg (by simp [h0])]
    simp only [h0, hstrip, pyOr, if_neg hne]
  · rw [if_pos (by simp [h0, hne])]
    exact h0

/-- When the row's base type is not display-enabled, `writeTableRow`
reduces to `ensureHost`. -/
theorem writeTableRow_hidden (c : MonitorCore) (row : TableRow)
    (hshow : pluginShowInTable c (getBaseTypeFromSource row.source) = false) :
    writeTableRow c row = ensureHost c row.host := by
  have hreg : pluginShowInTable (ensureHost c row.host) (getBaseTypeFromSource row.source) = false := by
    unfold pluginShowInTable resolve at hshow ⊢
    rw [ensureHost_registry]
    exact hshow
  simp only [writeTableRow]
  rw [if_neg (by rw [show (⟨takeBeforeColon (pyOr (pyLower (pyStrip row.source)) "?").data⟩ : String) = getBaseTypeFromSource row.source from rfl, hreg]; simp)]

/-- Claim C1 (amended): writing a row whose base type belongs to a
plugin with `showInTable = false` leaves the target host's visible row
entry for the row's full source key unchanged — in particular absent
whenever it was absent before — while the secondary cache entry for
(host, baseType) becomes the written, host-stamped row; this is stated
for the intended call shape (trimmed nonempty host key, row carrying
that key or none, nonempty base type).  In general, every write whose
stamped row has a nonempty trimmed host and a nonempty base type sets
the cache entry for that pair to the stamped row, regardless of display
flags; a write with a whitespace-only host or an empty base type sets
no cache entry. -/
theorem claimC1_thm :
    (∀ (c : MonitorCore) (h : String) (row : TableRow) (m : PluginMeta),
      pyStrip h = h → h ≠ "" → (row.host = "" ∨ row.host = h) →
      getBaseTypeFromSource row.source ≠ "" →
      resolve c (getBaseTypeFromSource row.source) = some m → m.showInTable = false →
      visibleRow (writeTable c h row) h (pyOr (pyLower (pyStrip row.source)) "?") =
          visibleRow c h (pyOr (pyLower (pyStrip row.source)) "?") ∧
        (writeTable c h row).lastRowByHostBaseType (h, getBaseTypeFromSource row.source) =
          some (fixRow h row)) ∧
    (∀ (c : MonitorCore) (h : String) (row : TableRow),
      pyStrip (fixRow h row).host ≠ "" → getBaseTypeFromSource (fixRow h row).source ≠ "" →
      (writeTable c h row).lastRowByHostBaseType
          (pyStrip (fixRow h row).host, getBaseTypeFromSource (fixRow h row).source) =
        some (fixRow h row)) := by
  constructor
  · intro c h row m hstrip hne hhost hbt hres hshow
    have hfix : (fixRow h row).host = h := fixRow_host h row hstrip hne hhost
    have hshowc : ∀ c2 : MonitorCore, c2.pluginRegistry = c.pluginRegistry →
        pluginShowInTable c2 (getBaseTypeFromSource row.source) = false := by
      intro c2 hr2
      have hres2 : resolve c2 (getBaseTypeFromSource row.source) = some m := by
        unfold resolve at hres ⊢
        rw [hr2]
        exact hres
      unfold pluginShowInTable
      simp only [hres2]
      exact hshow
    constructor
    · simp only [writeTable]
      rw [writeTableRow_hidden _ _ (by
        rw [fixRow_source]
        split
        · exact hshowc _ rfl
        · exact hshowc _ rfl)]
      rw [hfix]
      rw [visibleRow_ensureHost]
      split
      · rfl
      · rfl
    · simp only [writeTable]
      rw [writeTableRow_cache]
      rw [if_pos ⟨by rw [hfix, hstrip]; exact hne, by rw [fixRow_source]; exact hbt⟩]
      rw [show (pyStrip (fixRow h row).host, getBaseTypeFromSource (fixRow h row).source) =
          (h, getBaseTypeFromSource row.source) by rw [hfix, hstrip, fixRow_source]]
      exact upd_self _ _ _
  · intro c h row h1 h2
    simp only [writeTable]
    rw [writeTableRow_cache, if_pos ⟨h1, h2⟩]
    exact upd_self _ _ _

/-- Claim C1, counterexample.  The cache is keyed by the written row's
own trimmed host, not by the `writeTable` host argument, and a write is
skipped entirely when that trimmed host is empty: writing a row
carrying host "b" under host argument "a" leaves no entry at
("a", "udp") — the entry lands at ("b", "udp") — and writing a row
whose host is a single space (truthy in Python, so never re-stamped)
caches nothing at all, even though its plugin type is registered with
`showInTable = false` and the claim promises a cache entry on every
write. -/
theorem claimC1_cex :
    (writeTable { pluginRegistry := fun t => if t = "udp" then some { typeName := "udp", showInTable := false } else none } "a" { host := "b", source := "udp", text := "t", severity := "bad" }).lastRowByHostBaseType ("a", "udp") = none ∧
    (writeTable { pluginRegistry := fun t => if t = "udp" then some { typeName := "udp", showInTable := false } else none } "a" { host := "b", source := "udp", text := "t", severity := "bad" }).lastRowByHostBaseType ("b", "udp") = some { host := "b", source := "udp", text := "t", severity := "bad" } ∧
    (writeTable { pluginRegistry := fun t => if t = "udp" then some { typeName := "udp", showInTable := false } else none } "x" { host := " ", source := "udp", text := "t", severity := "bad" }).lastRowByHostBaseType ("x", "udp") = none ∧
    (writeTable { pluginRegistry := fun t => if t = "udp" then some { typeName := "udp", showInTable := false } else none } "x" { host := " ", source := "udp", text := "t", severity := "bad" }).lastRowByHostBaseType (" ", "udp") = none ∧
    (writeTable { pluginRegistry := fun t => if t = "udp" then some { typeName := "udp", showInTable := false } else none } "x" { host := " ", source := "udp", text := "t", severity := "bad" }).lastRowByHostBaseType ("", "udp") = none := by
  refine ⟨?_, ?_, ?_, ?_, ?_⟩ <;> decide

/-- Witness for C1 at a concrete input: host "a", a host-less row of
the hidden type "udp". -/
theorem claimC1_wit :
    pyStrip "a" = "a" ∧
      (writeTable { pluginRegistry := fun t => if t = "udp" then some { typeName := "udp", showInTable := false } else none } "a" { host := "", source := "udp", text := "t", severity := "bad" }).lastRowByHostBaseType ("a", getBaseTypeFromSource "udp") =
        some (fixRow "a" { host := "", source := "udp", text := "t", severity := "bad" }) :=
  ⟨by decide,
    (claimC1_thm.1 { pluginRegistry := fun t => if t = "udp" then some { typeName := "udp", showInTable := false } else none } "a" { host := "", source := "udp", text := "t", severity := "bad" } { typeName := "udp", showInTable := false }
      (by decide) (by decide) (Or.inl rfl) (by decide) (by decide) rfl).2⟩

/-- Claim C10 (amended): a write whose (nonempty) base type resolves to
no registered plugin updates no visible row entry of any host —
`pluginShowInTable` is false for unregistered types — while the
secondary cache still records the stamped row under (host, baseType),
and the row's normalised severity is queryable through
`getLastSeverity`; stated for the intended call shape (trimmed nonempty
host key, row carrying that key or none).  A source whose base type is
empty (for example one starting with a colon) is neither rendered nor
cached, and `getLastSeverity` returns none for it. -/
theorem claimC10_thm (c : MonitorCore) (h : String) (row : TableRow)
    (hstrip : pyStrip h = h) (hne : h ≠ "") (hhost : row.host = "" ∨ row.host = h)
    (hbt : getBaseTypeFromSource row.source ≠ "")
    (hbtlow : pyLower (getBaseTypeFromSource row.source) = getBaseTypeFromSource row.source)
    (hbtstrip : pyStrip (getBaseTypeFromSource row.source) = getBaseTypeFromSource row.source)
    (hres : resolve c (getBaseTypeFromSource row.source) = none) :
    (∀ hk sourceKey : String,
      visibleRow (writeTable c h row) hk sourceKey = visibleRow c hk sourceKey) ∧
    (writeTable c h row).lastRowByHostBaseType (h, getBaseTypeFromSource row.source) =
      some (fixRow h row) ∧
    getLastSeverity (writeTable c h row) h (getBaseTypeFromSource row.source) =
      (if pyLower (pyStrip row.severity) = "" then none
       else some (pyLower (pyStrip row.severity))) := by
  have hfix : (fixRow h row).host = h := fixRow_host h row hstrip hne hhost
  have hshowc : ∀ c2 : MonitorCore, c2.pluginRegistry = c.pluginRegistry →
      pluginShowInTable c2 (getBaseTypeFromSource row.source) = false := by
    intro c2 hr2
    have hres2 : resolve c2 (getBaseTypeFromSource row.source) = none := by
      unfold resolve at hres ⊢
      rw [hr2]
      exact hres
    unfold pluginShowInTable
    simp only [hres2]
  have hcache : (writeTable c h row).lastRowByHostBaseType (h, getBaseTypeFromSource row.source) =
      some (fixRow h row) := by
    simp only [writeTable]
    rw [writeTableRow_cache]
    rw [if_pos ⟨by rw [hfix, hstrip]; exact hne, by rw [fixRow_source]; exact hbt⟩]
    rw [show (pyStrip (fixRow h row).host, getBaseTypeFromSource (fixRow h row).source) =
        (h, getBaseTypeFromSource row.source) by rw [hfix, hstrip, fixRow_source]]
    exact upd_self _ _ _
  refine ⟨?_, hcache, ?_⟩
  · intro hk sourceKey
    simp only [writeTable]
    rw [writeTableRow_hidden _ _ (by
      rw [fixRow_source]
      split
      · exact hshowc _ rfl
      · exact hshowc _ rfl)]
    rw [visibleRow_ensureHost]
    split
    · rfl
    · rfl
  · unfold getLastSeverity
    rw [hstrip, hbtstrip, hbtlow]
    rw [if_neg (by
      intro hc
      rcases hc with hc | hc
      · exact hne hc
      · exact hbt hc)]
    rw [hcache]
    show (if pyLower (pyStrip (fixRow h row).severity) = "" then none
          else some (pyLower (pyStrip (fixRow h row).severity))) =
        (if pyLower (pyStrip row.severity) = "" then none
         else some (pyLower (pyStrip row.severity)))
    rw [fixRow_severity]

/-- Claim C10, counterexample: a row whose source starts with a colon
has an empty base type; it resolves to no plugin and is not rendered,
but — contrary to the claim — the secondary cache records nothing and
`getLastSeverity` cannot see it. -/
theorem claimC10_cex :
    (writeTable { pluginRegistry := fun _ => none } "a" { host := "a", source := ":x", text := "t", severity := "bad" }).lastRowByHostBaseType ("a", "") = none ∧
    getLastSeverity (writeTable { pluginRegistry := fun _ => none } "a" { host := "a", source := ":x", text := "t", severity := "bad" }) "a" "" = none ∧
    getBaseTypeFromSource ":x" = "" := by
  refine ⟨?_, ?_, ?_⟩ <;> decide

/-- Witness for C10 at a concrete input: an unregistered type "nope"
written for host "a". -/
theorem claimC10_wit :
    pyStrip "a" = "a" ∧
      getLastSeverity (writeTable { pluginRegistry := fun _ => none } "a" { host := "", source := "nope", text := "t", severity := "BAD" }) "a" (getBaseTypeFromSource "nope") =
        (if pyLower (pyStrip ("BAD" : String)) = "" then none else some (pyLower (pyStrip ("BAD" : String)))) :=
  ⟨by decide,
    (claimC10_thm { pluginRegistry := fun _ => none } "a" { host := "", source := "nope", text := "t", severity := "BAD" }
      (by decide) (by decide) (Or.inl rfl) (by decide) (by decide) (by decide) rfl).2.2⟩

end Overlord
